import Mathlib

/-!
Verification of the Chippin shared-expense ledger backend.

This file shallowly embeds the balance computation, debt simplification,
equal-split generation and offline-sync reconciliation logic of the
backend (files `api/views/group_views.py`, `api/views/sync_views.py`,
`api/serializers.py`, `api/views/expense_views.py`) and proves or refutes
the specified properties about them.

Modelling conventions:
* money amounts are exact rationals (the source uses Python `Decimal`
  for balance accumulation, a 28-significant-digit exact decimal type;
  no claim here depends on the difference between 28-digit decimals and
  exact rationals, which is noted where relevant);
* user ids, group ids and timestamps are natural numbers;
* Python `defaultdict(Decimal)` accumulators are total functions
  `Nat -> Rat` with default value 0;
* Python stable `list.sort` is modelled by a stable insertion sort
  (sort-algorithm choice is observationally irrelevant: only the
  ordering and stability are fixed by the source).
-/

namespace Chippin

/-- 1-cent tolerance used by the balance engine (`0.01` in the source). -/
def eps : ℚ := 1 / 100

/-! ## Data model for the balance engine (`group_views._calculate_balances`) -/

/-- One split row of an expense (model of `ExpenseSplit`): the member and
the owed amount. -/
structure ExpenseSplit where
  user_id : Nat
  amount : ℚ
deriving Repr, DecidableEq

/-- An expense as seen by the balance engine (model of `Expense` with its
prefetched `splits`). -/
structure Expense where
  paid_by : Nat
  amount : ℚ
  is_deleted : Bool
  is_settled : Bool
  splits : List ExpenseSplit
deriving Repr, DecidableEq

/-- A settlement row (model of `Settlement`): payer, payee, amount. -/
structure Settlement where
  from_user : Nat
  to_user : Nat
  amount : ℚ
deriving Repr, DecidableEq

/-- One entry of the balance summary produced by `_calculate_balances`. -/
structure BalanceEntry where
  user : Nat
  paid : ℚ
  owes : ℚ
  balance : ℚ
deriving Repr, DecidableEq

/-- `bump f k v` models `f[k] += v` on a `defaultdict(Decimal)`. -/
def bump (f : Nat → ℚ) (k : Nat) (v : ℚ) : Nat → ℚ :=
  fun u => if u = k then f u + v else f u

/-- Effect of one expense on the `(paid, owes)` accumulators
(`group_views.py` lines 169-172): the full amount is added to the payer
and each split amount to the owing member. -/
def applyExpense (acc : (Nat → ℚ) × (Nat → ℚ)) (e : Expense) : (Nat → ℚ) × (Nat → ℚ) :=
  (bump acc.1 e.paid_by e.amount,
   e.splits.foldl (fun f s => bump f s.user_id s.amount) acc.2)

/-- Effect of one settlement on the `(paid, owes)` accumulators
(`group_views.py` lines 175-179).  The source touches FOUR accumulators:
`paid[from] += a`, `owes[from] -= a`, `paid[to] -= a`, `owes[to] += a`. -/
def applySettlement (acc : (Nat → ℚ) × (Nat → ℚ)) (s : Settlement) : (Nat → ℚ) × (Nat → ℚ) :=
  (bump (bump acc.1 s.from_user s.amount) s.to_user (-s.amount),
   bump (bump acc.2 s.from_user (-s.amount)) s.to_user s.amount)

/-- Stable insertion into a list sorted by the boolean relation `le`:
the new element goes after every existing element `b` with `le b a`. -/
def insertLe (le : α → α → Bool) (a : α) : List α → List α
  | [] => [a]
  | b :: bs => if le b a then b :: insertLe le a bs else a :: b :: bs

/-- Stable sort by the boolean relation `le` (model of Python stable
`list.sort`). -/
def sortLe (le : α → α → Bool) : List α → List α
  | [] => []
  | a :: as => insertLe le a (sortLe le as)

/-- A debtor or creditor entry inside `_simplify_debts` (a dict with a
`user` and a running `amount`). -/
structure DebtEntry where
  user : Nat
  amount : ℚ
deriving Repr, DecidableEq

/-- A simplified-debt transaction `{from, to, amount}`. -/
structure Transaction where
  from_user : Nat
  to_user : Nat
  amount : ℚ
deriving Repr, DecidableEq

/-- `round(x, 2)` applied to the transaction amount.  Python rounds the
nearest-representable float half-to-even; the tie-breaking rule is never
exercised by any property proved here. -/
def round2 (q : ℚ) : ℚ := (round (q * 100) : ℤ) / 100

/-- Partition of the balance list into debtors (`balance < -0.01`, with
`amount = abs(balance)`) and creditors (`balance > 0.01`), in iteration
order (`group_views.py` lines 223-233). -/
def classifyBalances : List BalanceEntry → List DebtEntry × List DebtEntry
  | [] => ([], [])
  | b :: bs =>
    let rest := classifyBalances bs
    if b.balance < -eps then (⟨b.user, |b.balance|⟩ :: rest.1, rest.2)
    else if eps < b.balance then (rest.1, ⟨b.user, b.balance⟩ :: rest.2)
    else rest

/-- The greedy two-cursor matching loop of `_simplify_debts`
(`group_views.py` lines 240-260).  Advancing cursor `i` (resp. `j`) is
modelled by dropping the head of the debtor (resp. creditor) list;
a partially consumed head is put back with its decremented remainder. -/
def greedyLoop : List DebtEntry → List DebtEntry → List Transaction
  | [], _ => []
  | _ :: _, [] => []
  | d :: ds, c :: cs =>
    let amount := min d.amount c.amount
    let emit : List Transaction :=
      if eps < amount then [⟨d.user, c.user, round2 amount⟩] else []
    let dRem := d.amount - amount
    let cRem := c.amount - amount
    let debtors' := if dRem < eps then ds else ⟨d.user, dRem⟩ :: ds
    let creditors' := if cRem < eps then cs else ⟨c.user, cRem⟩ :: cs
    emit ++ greedyLoop debtors' creditors'
termination_by ds cs => ds.length + cs.length
decreasing_by
  simp only [List.length_cons]
  rcases le_total d.amount c.amount with h | h
  · have hd : d.amount - min d.amount c.amount = 0 := by
      rw [min_eq_left h]; ring
    rw [hd]
    have h01 : (0 : ℚ) < eps := by norm_num [eps]
    rw [dif_pos h01]
    split
    · omega
    · simp only [List.length_cons]; omega
  · have hc : c.amount - min d.amount c.amount = 0 := by
      rw [min_eq_right h]; ring
    rw [hc]
    have h01 : (0 : ℚ) < eps := by norm_num [eps]
    rw [dif_pos h01]
    split
    · omega
    · simp only [List.length_cons]; omega

/-- Model of `GroupViewSet._simplify_debts`: classify, sort debtors and
creditors by amount descending (Python `sort(key=amount, reverse=True)`,
stable), then run the greedy matching loop. -/
def simplifyDebts (balances : List BalanceEntry) : List Transaction :=
  let dc := classifyBalances balances
  let debtors := sortLe (fun a b => decide (b.amount ≤ a.amount)) dc.1
  let creditors := sortLe (fun a b => decide (b.amount ≤ a.amount)) dc.2
  greedyLoop debtors creditors

/-- The balance list produced by `GroupViewSet._calculate_balances`:
fold all non-deleted, unsettled expenses and then all settlements into
the `(paid, owes)` accumulators, read the accumulators off for every
group member, and sort ascending by net balance. -/
def calculateBalancesList (members : List Nat) (expenses : List Expense)
    (settlements : List Settlement) : List BalanceEntry :=
  let active := expenses.filter (fun e => !e.is_deleted && !e.is_settled)
  let acc0 := active.foldl applyExpense (fun _ => 0, fun _ => 0)
  let acc := settlements.foldl applySettlement acc0
  let result := members.map (fun m =>
    { user := m, paid := acc.1 m, owes := acc.2 m, balance := acc.1 m - acc.2 m })
  sortLe (fun a b => decide (a.balance ≤ b.balance)) result

/-- Full result of `_calculate_balances`: the sorted balance list
together with the simplified debt transactions. -/
def calculateBalances (members : List Nat) (expenses : List Expense)
    (settlements : List Settlement) : List BalanceEntry × List Transaction :=
  let result := calculateBalancesList members expenses settlements
  (result, simplifyDebts result)

/-! ## Split engine (`serializers.py`) -/

/-- Model of `ExpenseSerializer.validate` for the split-override check:
with a nonempty `split_data`, validation passes iff the split total
differs from the expense amount by at most `0.01`. -/
def validateSplitData (amount : ℚ) (splitAmounts : List ℚ) : Bool :=
  if splitAmounts.isEmpty then true
  else decide (|splitAmounts.sum - amount| ≤ 1 / 100)

/-- Model of `ExpenseSerializer._create_equal_splits`
(`serializers.py` lines 112-130).  `per_person` is the exact decimal
quotient `amount / len(members)` (Python `Decimal` division at
28-significant-digit context precision, modelled here by exact rational
division; for `100 / 3` both differ from any whole number of cents) and
the first member additionally receives `amount - per_person * count`. -/
def createEqualSplits (amount : ℚ) (members : List Nat) : List ExpenseSplit :=
  if members.length = 0 then []
  else
    let perPerson := amount / members.length
    let remainder := amount - perPerson * members.length
    members.enum.map (fun p =>
      { user_id := p.2, amount := if p.1 = 0 then perPerson + remainder else perPerson })

/-! ## Sync reconciler (`sync_views.py`)

The server database is modelled as explicit tables.  One push batch is
processed inside a single `transaction.atomic()` block whose effects all
commit at the end (no exception escapes the block because
`_process_change` catches every exception per change), so the committed
state is obtained by simply threading the state through the loop;
storage effects applied before a caught mid-change failure persist.
A storage-level failure of a single row insert (null value in a
non-nullable column, or a foreign key to a missing user) is modelled by
the affected create returning the state unchanged by that one row,
mirroring that a failed INSERT writes nothing. -/

/-- The payload of one split inside a pushed expense change
(`split.get(...)` calls in the source). -/
structure SplitPayload where
  user_id : Option Nat
  amount : Option ℚ
  percentage : Option ℚ
  shares : Option Nat
deriving Repr, DecidableEq

/-- The `data` dict of a pushed change.  All keys are optional, as in a
Python dict read with `.get`; keys of all three entity types coexist. -/
structure DataDict where
  group : Option Nat
  description : Option String
  amount : Option ℚ
  currency : Option String
  paid_by : Option Nat
  split_type : Option String
  expense_date : Option Nat
  notes : Option String
  splits : Option (List SplitPayload)
  name : Option String
  from_user : Option Nat
  to_user : Option Nat
deriving Repr, DecidableEq

/-- A change that passed `SyncPushSerializer` validation. -/
structure Change where
  entity_type : String
  operation : String
  entity_id : Nat
  local_id : Option Nat
  data : DataDict
  client_timestamp : Nat
deriving Repr, DecidableEq

/-- A raw change as submitted, before `SyncPushSerializer` validation:
every field may be missing. -/
structure RawChange where
  entity_type : Option String
  operation : Option String
  entity_id : Option Nat
  local_id : Option Nat
  data : Option DataDict
  client_timestamp : Option Nat
deriving Repr, DecidableEq

/-- Model of `SyncPushSerializer.is_valid`: all required fields present
and the two choice fields within their allowed values. -/
def validateChange (rc : RawChange) : Option Change :=
  match rc.entity_type, rc.operation, rc.entity_id, rc.data, rc.client_timestamp with
  | some et, some op, some eid, some d, some ts =>
    if (et = "expense" ∨ et = "group" ∨ et = "settlement") ∧
       (op = "create" ∨ op = "update" ∨ op = "delete") then
      some ⟨et, op, eid, rc.local_id, d, ts⟩
    else none
  | _, _, _, _, _ => none

/-- A stored expense row (sync-level model of `Expense`). -/
structure SExpense where
  id : Nat
  group : Nat
  description : String
  amount : ℚ
  currency : String
  paid_by : Nat
  split_type : String
  expense_date : Nat
  notes : String
  created_by : Nat
  local_id : Option Nat
  last_synced_at : Option Nat
  updated_at : Nat
  sync_version : Nat
  is_deleted : Bool
deriving Repr, DecidableEq

/-- A stored split row (sync-level model of `ExpenseSplit`). -/
structure SSplit where
  expense : Nat
  user : Nat
  amount : ℚ
  percentage : Option ℚ
  shares : Nat
deriving Repr, DecidableEq

/-- A stored group row.  The randomly generated invite code is omitted:
no verified property mentions it. -/
structure SGroup where
  id : Nat
  name : String
  description : String
  currency : String
  owner : Nat
  updated_at : Nat
deriving Repr, DecidableEq

/-- A stored group membership row. -/
structure Membership where
  user : Nat
  group : Nat
  role : String
deriving Repr, DecidableEq

/-- A stored settlement row (sync-level model of `Settlement`). -/
structure SSettlement where
  id : Nat
  group : Nat
  from_user : Nat
  to_user : Nat
  amount : ℚ
  notes : String
  created_by : Nat
  settled_at : Nat
deriving Repr, DecidableEq

/-- A `SyncLog` row. -/
structure LogEntry where
  user : Nat
  entity_type : String
  entity_id : Nat
  operation : String
  data : DataDict
  client_timestamp : Nat
  is_resolved : Bool
deriving Repr, DecidableEq

/-- The server database: the tables the sync views touch, plus a
counter supplying fresh server-side ids (`uuid4` in the source). -/
structure Db where
  users : List Nat
  groups : List SGroup
  memberships : List Membership
  expenses : List SExpense
  splits : List SSplit
  settlements : List SSettlement
  logs : List LogEntry
  nextId : Nat
deriving Repr, DecidableEq

/-- Serialized state of an entity as returned inside a push outcome. -/
inductive EntityData where
  | expense (e : SExpense) (splits : List SSplit)
  | group (g : SGroup)
  | settlement (s : SSettlement)
deriving Repr, DecidableEq

/-- The per-change outcome dict.  Keys absent in the Python dict are
`none` / `false` here. -/
structure SyncResult where
  local_id : Option Nat
  entity_type : Option String
  operation : Option String
  success : Bool
  conflict : Bool
  error : Option String
  server_id : Option Nat
  server_data : Option EntityData
  data : Option EntityData
deriving Repr, DecidableEq

/-- `ExpenseSerializer(expense).data`: the expense with its split rows. -/
def serializeExpense (db : Db) (e : SExpense) : EntityData :=
  .expense e (db.splits.filter (fun s => decide (s.expense = e.id)))

/-- `GroupMembership` check used by `Group.objects.filter(members=user)`. -/
def isMember (db : Db) (u g : Nat) : Bool :=
  db.memberships.any (fun m => decide (m.user = u) && decide (m.group = g))

/-- `Group.objects.filter(id=data.get('group'), members=user).first()`:
none when the key is absent, the group does not exist, or the user is
not a member. -/
def findGroupForMember (db : Db) (gid : Option Nat) (u : Nat) : Option SGroup :=
  match gid with
  | none => none
  | some g => if isMember db u g then db.groups.find? (fun x => decide (x.id = g)) else none

/-- `expense.group.owner`. -/
def expenseGroupOwner (db : Db) (e : SExpense) : Option Nat :=
  (db.groups.find? (fun g => decide (g.id = e.group))).map SGroup.owner

/-- The split-creation loop of `_sync_expense` (both create and update
paths).  Each `ExpenseSplit.objects.create` raises when `user_id` or
`amount` is missing or the user row does not exist; rows created before
the raise remain in the open transaction, so they stay in the state.
Returns the state plus `true` on completion, `false` on a raise. -/
def createSplitRows (db : Db) (eid : Nat) : List SplitPayload → Db × Bool
  | [] => (db, true)
  | sp :: rest =>
    match sp.user_id, sp.amount with
    | some u, some a =>
      if db.users.contains u then
        createSplitRows
          { db with splits := db.splits ++ [⟨eid, u, a, sp.percentage, sp.shares.getD 1⟩] }
          eid rest
      else (db, false)
    | _, _ => (db, false)

/-- The initial per-change result dict built at the top of
`_process_change`. -/
def initResult (c : Change) : SyncResult :=
  ⟨some (c.local_id.getD c.entity_id), some c.entity_type, some c.operation,
   false, false, none, none, none, none⟩

/-- The result appended for a change that fails `SyncPushSerializer`
validation (`sync_views.py` lines 53-59). -/
def invalidResult (rc : RawChange) : SyncResult :=
  ⟨rc.local_id <|> rc.entity_id, none, none, false, false,
   some "validation error", none, none, none⟩

/-- Model of `SyncPushView._sync_expense`. -/
def syncExpense (db : Db) (user : Nat) (op : String) (eid : Nat) (lid : Option Nat)
    (d : DataDict) (ts now : Nat) (r : SyncResult) : Db × SyncResult :=
  if op = "create" then
    match findGroupForMember db d.group user with
    | none => (db, { r with error := some "Group not found or access denied" })
    | some g =>
      match d.amount, d.paid_by with
      | some amt, some payer =>
        if db.users.contains payer then
          let e : SExpense :=
            { id := db.nextId, group := g.id, description := d.description.getD "",
              amount := amt, currency := d.currency.getD "INR", paid_by := payer,
              split_type := d.split_type.getD "equal",
              expense_date := d.expense_date.getD now, notes := d.notes.getD "",
              created_by := user, local_id := lid, last_synced_at := some now,
              updated_at := now, sync_version := 1, is_deleted := false }
          let db1 := { db with expenses := db.expenses ++ [e], nextId := db.nextId + 1 }
          let step := createSplitRows db1 e.id (d.splits.getD [])
          if step.2 then
            (step.1, { r with success := true, server_id := some e.id,
                              data := some (serializeExpense step.1 e) })
          else (step.1, { r with error := some "split creation failed" })
        else (db, { r with error := some "foreign key violation" })
      | _, _ => (db, { r with error := some "not-null violation" })
  else if op = "update" then
    match db.expenses.find? (fun x => decide (x.id = eid)) with
    | none => (db, { r with error := some "Expense not found" })
    | some e =>
      if ts < e.updated_at then
        (db, { r with conflict := true, server_data := some (serializeExpense db e),
                      error := some "Server version is newer" })
      else if e.created_by ≠ user ∧ expenseGroupOwner db e ≠ some user then
        (db, { r with error := some "Permission denied" })
      else
        let e1 : SExpense :=
          { e with description := d.description.getD e.description,
                   amount := d.amount.getD e.amount,
                   currency := d.currency.getD e.currency,
                   split_type := d.split_type.getD e.split_type,
                   expense_date := d.expense_date.getD e.expense_date,
                   notes := d.notes.getD e.notes,
                   sync_version := e.sync_version + 1,
                   last_synced_at := some now, updated_at := now }
        let db1 := { db with expenses := db.expenses.map (fun x => if x.id = eid then e1 else x) }
        match d.splits with
        | none => (db1, { r with success := true, data := some (serializeExpense db1 e1) })
        | some sps =>
          let db2 := { db1 with splits := db1.splits.filter (fun s => !decide (s.expense = eid)) }
          let step := createSplitRows db2 eid sps
          if step.2 then
            (step.1, { r with success := true, data := some (serializeExpense step.1 e1) })
          else (step.1, { r with error := some "split creation failed" })
  else if op = "delete" then
    match db.expenses.find? (fun x => decide (x.id = eid)) with
    | none => (db, { r with error := some "Expense not found" })
    | some e =>
      if e.created_by ≠ user ∧ expenseGroupOwner db e ≠ some user then
        (db, { r with error := some "Permission denied" })
      else
        ({ db with expenses := db.expenses.map (fun x =>
             if x.id = eid then { x with is_deleted := true, updated_at := now } else x) },
         { r with success := true })
  else (db, r)

/-- Model of `SyncPushView._sync_group`. -/
def syncGroup (db : Db) (user : Nat) (op : String) (eid : Nat)
    (d : DataDict) (ts now : Nat) (r : SyncResult) : Db × SyncResult :=
  if op = "create" then
    match d.name with
    | none => (db, { r with error := some "not-null violation" })
    | some nm =>
      let g : SGroup := { id := db.nextId, name := nm, description := d.description.getD "",
                          currency := d.currency.getD "INR", owner := user, updated_at := now }
      ({ db with groups := db.groups ++ [g],
                 memberships := db.memberships ++ [⟨user, g.id, "owner"⟩],
                 nextId := db.nextId + 1 },
       { r with success := true, server_id := some g.id, data := some (.group g) })
  else if op = "update" then
    match db.groups.find? (fun g => decide (g.id = eid) && decide (g.owner = user)) with
    | none => (db, { r with error := some "Group not found or permission denied" })
    | some g =>
      if ts < g.updated_at then
        (db, { r with conflict := true, server_data := some (.group g),
                      error := some "Server version is newer" })
      else
        let g1 : SGroup := { g with name := d.name.getD g.name,
                                    description := d.description.getD g.description,
                                    currency := d.currency.getD g.currency,
                                    updated_at := now }
        ({ db with groups := db.groups.map (fun x => if x.id = g.id then g1 else x) },
         { r with success := true, data := some (.group g1) })
  else (db, r)

/-- Model of `SyncPushView._sync_settlement`: only `create` is handled;
any other operation falls through and returns the initial result
(`success = False`) untouched. -/
def syncSettlement (db : Db) (user : Nat) (op : String)
    (d : DataDict) (now : Nat) (r : SyncResult) : Db × SyncResult :=
  if op = "create" then
    match findGroupForMember db d.group user with
    | none => (db, { r with error := some "Group not found or access denied" })
    | some g =>
      match d.from_user, d.to_user, d.amount with
      | some fu, some tu, some amt =>
        if db.users.contains fu && db.users.contains tu then
          let s : SSettlement := { id := db.nextId, group := g.id, from_user := fu,
                                   to_user := tu, amount := amt, notes := d.notes.getD "",
                                   created_by := user, settled_at := now }
          ({ db with settlements := db.settlements ++ [s], nextId := db.nextId + 1 },
           { r with success := true, server_id := some s.id, data := some (.settlement s) })
        else (db, { r with error := some "foreign key violation" })
      | _, _, _ => (db, { r with error := some "not-null violation" })
  else (db, r)

/-- The `SyncLog` row written at the end of `_process_change`. -/
def logOf (user : Nat) (c : Change) (resolved : Bool) : LogEntry :=
  ⟨user, c.entity_type, c.entity_id, c.operation, c.data, c.client_timestamp, resolved⟩

/-- Model of `SyncPushView._process_change`: dispatch on the entity
type, then append exactly one audit-log row recording the change and
whether it was resolved. -/
def processChange (db : Db) (user : Nat) (c : Change) (now : Nat) : Db × SyncResult :=
  let r0 := initResult c
  let step : Db × SyncResult :=
    if c.entity_type = "expense" then
      syncExpense db user c.operation c.entity_id c.local_id c.data c.client_timestamp now r0
    else if c.entity_type = "group" then
      syncGroup db user c.operation c.entity_id c.data c.client_timestamp now r0
    else if c.entity_type = "settlement" then
      syncSettlement db user c.operation c.data now r0
    else (db, { r0 with error := some "Unknown entity type" })
  ({ step.1 with logs := step.1.logs ++ [logOf user c step.2.success] }, step.2)

/-- Model of the loop in `SyncPushView.post`: validate each raw change,
record an error outcome without processing (and without logging) on
validation failure, otherwise process the change against the state left
by the previous changes. -/
def processBatch (db : Db) (user now : Nat) : List RawChange → Db × List SyncResult
  | [] => (db, [])
  | rc :: rest =>
    match validateChange rc with
    | none =>
      let next := processBatch db user now rest
      (next.1, invalidResult rc :: next.2)
    | some c =>
      let step := processChange db user c now
      let next := processBatch step.1 user now rest
      (next.1, step.2 :: next.2)

/-- Model of `ExpenseViewSet.destroy`: soft delete, writing only the
`is_deleted` flag and the `updated_at` auto-now column. -/
def destroyExpense (db : Db) (eid : Nat) (now : Nat) : Db :=
  { db with expenses := db.expenses.map (fun x =>
      if x.id = eid then { x with is_deleted := true, updated_at := now } else x) }

/-! ## Sync pull (`SyncPullView.get`) -/

/-- Result of a pull request. -/
structure PullResult where
  groups : List SGroup
  expenses : List SExpense
  settlements : List SSettlement
  server_timestamp : Nat
deriving Repr, DecidableEq

/-- Model of `SyncPullView.get`: the accessible groups are the ones the
user is a member of, optionally narrowed by the `group_ids` parameter;
each table is filtered by its change timestamp when `last_sync` is
given (`updated_at` for groups and expenses, `settled_at` for
settlements, all strict `__gt`). -/
def syncPull (db : Db) (user : Nat) (lastSync : Option Nat)
    (groupIds : Option (List Nat)) (now : Nat) : PullResult :=
  let userGroups0 := db.groups.filter (fun g => isMember db user g.id)
  let userGroups := match groupIds with
    | some ids => userGroups0.filter (fun g => ids.contains g.id)
    | none => userGroups0
  { groups := match lastSync with
      | some t => userGroups.filter (fun g => decide (t < g.updated_at))
      | none => userGroups,
    expenses :=
      let inGroups := db.expenses.filter (fun e => userGroups.any (fun g => decide (g.id = e.group)))
      match lastSync with
      | some t => inGroups.filter (fun e => decide (t < e.updated_at))
      | none => inGroups,
    settlements :=
      let inGroups := db.settlements.filter (fun s => userGroups.any (fun g => decide (g.id = s.group)))
      match lastSync with
      | some t => inGroups.filter (fun s => decide (t < s.settled_at))
      | none => inGroups,
    server_timestamp := now }

/-- Spec-side characterization (for the pull claim): whether a group is
accessible to the user under an optional group-id narrowing. -/
def specAccessible (db : Db) (user : Nat) (groupIds : Option (List Nat)) (g : SGroup) : Bool :=
  isMember db user g.id && (match groupIds with
    | some ids => ids.contains g.id
    | none => true)

/-- Spec-side characterization: does a change timestamp pass the
`sinceTimestamp` filter (strictly newer, or no filter). -/
def specSince (lastSync : Option Nat) (t : Nat) : Bool :=
  match lastSync with
  | some s => decide (s < t)
  | none => true

/-! ## Concrete server states and changes used as test inputs -/

/-- A server state with one user (id 1) owning one group (id 1). -/
def dbW : Db :=
  { users := [1], groups := [⟨1, "flat", "", "INR", 1, 0⟩],
    memberships := [⟨1, 1, "owner"⟩], expenses := [], splits := [],
    settlements := [], logs := [], nextId := 100 }

/-- Payload of an expense-create change whose second split references
user 2, who does not exist in `dbW`. -/
def dC2 : DataDict :=
  { group := some 1, description := some "groceries", amount := some 100,
    currency := none, paid_by := some 1, split_type := none,
    expense_date := none, notes := none,
    splits := some [⟨some 1, some 50, none, none⟩, ⟨some 2, some 50, none, none⟩],
    name := none, from_user := none, to_user := none }

/-- A well-formed raw expense-create change carrying `dC2`. -/
def rcC2 : RawChange :=
  { entity_type := some "expense", operation := some "create",
    entity_id := some 900, local_id := some 900, data := some dC2,
    client_timestamp := some 5 }

/-- A raw change with no `entity_type`: it fails push validation. -/
def rcC5 : RawChange :=
  { entity_type := none, operation := some "create", entity_id := some 901,
    local_id := none, data := some dC2, client_timestamp := some 5 }

/-- A `data` dict with every key absent. -/
def dNone : DataDict :=
  { group := none, description := none, amount := none, currency := none,
    paid_by := none, split_type := none, expense_date := none, notes := none,
    splits := none, name := none, from_user := none, to_user := none }

/-- A stored expense (id 50, in group 1, created by user 1) whose
`updated_at` is 10. -/
def expC4 : SExpense :=
  { id := 50, group := 1, description := "dinner", amount := 100,
    currency := "INR", paid_by := 1, split_type := "equal", expense_date := 3,
    notes := "", created_by := 1, local_id := none, last_synced_at := none,
    updated_at := 10, sync_version := 1, is_deleted := false }

/-- `dbW` together with the stored expense `expC4`. -/
def dbC4 : Db :=
  { dbW with expenses := [expC4] }

/-- An update change for expense 50 declaring `client_timestamp = 4`,
older than the stored `updated_at = 10`. -/
def cUpd : Change :=
  { entity_type := "expense", operation := "update", entity_id := 50,
    local_id := some 7,
    data := { dNone with description := some "brunch" },
    client_timestamp := 4 }

/-- A settlement-update change (settlements are never updatable). -/
def cSet : Change :=
  { entity_type := "settlement", operation := "update", entity_id := 77,
    local_id := none, data := dNone, client_timestamp := 5 }

/-- A delete change for expense 50. -/
def cDel : Change :=
  { entity_type := "expense", operation := "delete", entity_id := 50,
    local_id := none, data := dNone, client_timestamp := 5 }

/-! ## General lemmas about the sort, the greedy loop and the accumulators -/

theorem insertLe_perm (le : α → α → Bool) (a : α) (l : List α) :
    (insertLe le a l).Perm (a :: l) := by
  induction l with
  | nil => simp [insertLe]
  | cons b bs ih =>
    simp only [insertLe]
    split
    · exact (ih.cons b).trans (List.Perm.swap a b bs)
    · exact List.Perm.refl _

theorem sortLe_perm (le : α → α → Bool) (l : List α) :
    (sortLe le l).Perm l := by
  induction l with
  | nil => simp [sortLe]
  | cons a as ih =>
    exact (insertLe_perm le a (sortLe le as)).trans (ih.cons a)

theorem sortLe_length (le : α → α → Bool) (l : List α) :
    (sortLe le l).length = l.length :=
  (sortLe_perm le l).length_eq

theorem greedyLoop_length_le (n : Nat) :
    ∀ ds cs : List DebtEntry, ds.length + cs.length ≤ n →
      (greedyLoop ds cs).length ≤ ds.length + cs.length - 1 := by
  induction n with
  | zero =>
    intro ds cs h
    have hd : ds = [] := by cases ds <;> simp_all
    subst hd
    have hc : cs = [] := by cases cs <;> simp_all
    subst hc
    simp [greedyLoop]
  | succ n ih =>
    intro ds cs h
    match ds, cs with
    | [], _ => simp [greedyLoop]
    | _ :: _, [] => simp [greedyLoop]
    | d :: ds, c :: cs =>
      simp only [List.length_cons] at h
      have hone : d.amount - min d.amount c.amount < eps ∨
          c.amount - min d.amount c.amount < eps := by
        have h01 : (0 : ℚ) < eps := by norm_num [eps]
        rcases le_total d.amount c.amount with hdc | hdc
        · left; rw [min_eq_left hdc]; linarith
        · right; rw [min_eq_right hdc]; linarith
      have key : ∀ (e : List Transaction) (X Y : List DebtEntry),
          e.length ≤ 1 → X.length + Y.length ≤ ds.length + cs.length + 1 →
          X.length + Y.length ≤ n →
          (e ++ greedyLoop X Y).length ≤ (d :: ds).length + (c :: cs).length - 1 := by
        intro e X Y he hXY hn
        have hrec := ih X Y hn
        simp only [List.length_append, List.length_cons]
        omega
      simp only [greedyLoop]
      set e := (if eps < min d.amount c.amount then
        [Transaction.mk d.user c.user (round2 (min d.amount c.amount))] else
        ([] : List Transaction)) with he
      have hemit : e.length ≤ 1 := by rw [he]; split <;> simp
      split_ifs with hq hr hr
      · exact key e ds cs hemit (by omega) (by omega)
      · exact key e ds (⟨c.user, c.amount - min d.amount c.amount⟩ :: cs) hemit
          (by simp only [List.length_cons]; omega)
          (by simp only [List.length_cons]; omega)
      · exact key e (⟨d.user, d.amount - min d.amount c.amount⟩ :: ds) cs hemit
          (by simp only [List.length_cons]; omega)
          (by simp only [List.length_cons]; omega)
      · rcases hone with hx | hx <;> contradiction

theorem classifyBalances_fst_length (bs : List BalanceEntry) :
    (classifyBalances bs).1.length =
      (bs.filter (fun b => decide (b.balance < -eps))).length := by
  induction bs with
  | nil => simp [classifyBalances]
  | cons b bs ih =>
    simp only [classifyBalances]
    split_ifs with h1 h2
    · simp [List.filter_cons, h1, ih]
    · simp [List.filter_cons, h1, ih]
    · simp [List.filter_cons, h1, ih]

theorem classifyBalances_snd_length (bs : List BalanceEntry) :
    (classifyBalances bs).2.length =
      (bs.filter (fun b => decide (eps < b.balance))).length := by
  induction bs with
  | nil => simp [classifyBalances]
  | cons b bs ih =>
    simp only [classifyBalances]
    split_ifs with h1 h2
    · have h3 : ¬ (eps < b.balance) := by
        have h01 : (0 : ℚ) < eps := by norm_num [eps]
        linarith
      simp [List.filter_cons, h3, ih]
    · simp [List.filter_cons, h2, ih]
    · simp [List.filter_cons, h2, ih]

theorem sum_map_bump : ∀ (members : List Nat), members.Nodup →
    ∀ (f : Nat → ℚ) (k : Nat) (v : ℚ),
    (members.map (bump f k v)).sum =
      (members.map f).sum + (if k ∈ members then v else 0) := by
  intro members
  induction members with
  | nil => intro _ f k v; simp
  | cons m ms ih =>
    intro hnd f k v
    simp only [List.nodup_cons] at hnd
    by_cases hk : k = m
    · subst hk
      simp only [List.map_cons, List.sum_cons, bump, if_pos rfl, ih hnd.2 f k v,
        if_neg hnd.1, List.mem_cons, true_or, if_pos]
      ring
    · have hb : bump f k v m = f m := by simp [bump, Ne.symm hk]
      simp only [List.map_cons, List.sum_cons, hb, ih hnd.2 f k v, List.mem_cons, hk,
        false_or]
      ring

theorem sum_map_foldl_bumps :
    ∀ (splits : List ExpenseSplit) (members : List Nat), members.Nodup →
    (∀ sp ∈ splits, sp.user_id ∈ members) → ∀ (g : Nat → ℚ),
    (members.map (splits.foldl (fun f s => bump f s.user_id s.amount) g)).sum =
      (members.map g).sum + (splits.map ExpenseSplit.amount).sum := by
  intro splits
  induction splits with
  | nil => intro members _ _ g; simp
  | cons sp sps ih =>
    intro members hnd hmem g
    simp only [List.foldl_cons, List.map_cons, List.sum_cons]
    rw [ih members hnd (fun x hx => hmem x (List.mem_cons_of_mem sp hx)),
      sum_map_bump members hnd, if_pos (hmem sp (List.mem_cons_self sp sps))]
    ring

theorem net_foldl_applyExpense :
    ∀ (es : List Expense) (members : List Nat), members.Nodup →
    (∀ e ∈ es, (e.splits.map ExpenseSplit.amount).sum = e.amount ∧
      e.paid_by ∈ members ∧ ∀ sp ∈ e.splits, sp.user_id ∈ members) →
    ∀ acc : (Nat → ℚ) × (Nat → ℚ),
    (members.map (es.foldl applyExpense acc).1).sum -
      (members.map (es.foldl applyExpense acc).2).sum =
      (members.map acc.1).sum - (members.map acc.2).sum := by
  intro es
  induction es with
  | nil => intro members _ _ acc; simp
  | cons e es ih =>
    intro members hnd hyp acc
    obtain ⟨hsum, hpb, hsp⟩ := hyp e (List.mem_cons_self e es)
    simp only [List.foldl_cons]
    rw [ih members hnd (fun x hx => hyp x (List.mem_cons_of_mem e hx))]
    simp only [applyExpense]
    rw [sum_map_bump members hnd, if_pos hpb,
      sum_map_foldl_bumps e.splits members hnd hsp, hsum]
    ring

theorem net_foldl_applySettlement :
    ∀ (ss : List Settlement) (members : List Nat), members.Nodup →
    (∀ s ∈ ss, s.from_user ∈ members ∧ s.to_user ∈ members) →
    ∀ acc : (Nat → ℚ) × (Nat → ℚ),
    (members.map (ss.foldl applySettlement acc).1).sum -
      (members.map (ss.foldl applySettlement acc).2).sum =
      (members.map acc.1).sum - (members.map acc.2).sum := by
  intro ss
  induction ss with
  | nil => intro members _ _ acc; simp
  | cons s ss ih =>
    intro members hnd hyp acc
    obtain ⟨hf, ht⟩ := hyp s (List.mem_cons_self s ss)
    simp only [List.foldl_cons]
    rw [ih members hnd (fun x hx => hyp x (List.mem_cons_of_mem s hx))]
    simp only [applySettlement]
    rw [sum_map_bump members hnd (bump acc.1 s.from_user s.amount), if_pos ht,
      sum_map_bump members hnd acc.1, if_pos hf,
      sum_map_bump members hnd (bump acc.2 s.from_user (-s.amount)), if_pos ht,
      sum_map_bump members hnd acc.2, if_pos hf]
    ring

theorem sum_map_sub (members : List Nat) (f g : Nat → ℚ) :
    (members.map (fun m => f m - g m)).sum =
      (members.map f).sum - (members.map g).sum := by
  induction members with
  | nil => simp
  | cons m ms ih => simp only [List.map_cons, List.sum_cons, ih]; ring

/-! ## General lemmas about the sync reconciler -/

theorem createSplitRows_logs :
    ∀ (sps : List SplitPayload) (db : Db) (eid : Nat),
      (createSplitRows db eid sps).1.logs = db.logs := by
  intro sps
  induction sps with
  | nil => intro db eid; rfl
  | cons sp rest ih =>
    intro db eid
    simp only [createSplitRows]
    cases sp.user_id with
    | none => rfl
    | some u =>
      cases sp.amount with
      | none => rfl
      | some a =>
        dsimp only
        split
        · rw [ih]
        · rfl

theorem syncExpense_logs (db : Db) (user : Nat) (op : String) (eid : Nat)
    (lid : Option Nat) (d : DataDict) (ts now : Nat) (r : SyncResult) :
    (syncExpense db user op eid lid d ts now r).1.logs = db.logs := by
  unfold syncExpense
  repeat'
    first
      | rfl
      | split
      | (dsimp only; split)
      | simp [createSplitRows_logs]

theorem syncGroup_logs (db : Db) (user : Nat) (op : String) (eid : Nat)
    (d : DataDict) (ts now : Nat) (r : SyncResult) :
    (syncGroup db user op eid d ts now r).1.logs = db.logs := by
  unfold syncGroup
  repeat'
    first
      | rfl
      | split

theorem syncSettlement_logs (db : Db) (user : Nat) (op : String)
    (d : DataDict) (now : Nat) (r : SyncResult) :
    (syncSettlement db user op d now r).1.logs = db.logs := by
  unfold syncSettlement
  repeat'
    first
      | rfl
      | split

theorem processChange_logs (db : Db) (user : Nat) (c : Change) (now : Nat) :
    (processChange db user c now).1.logs =
      db.logs ++ [logOf user c (processChange db user c now).2.success] := by
  unfold processChange
  dsimp only
  split
  · rw [syncExpense_logs]
  · split
    · rw [syncGroup_logs]
    · split
      · rw [syncSettlement_logs]
      · rfl

/-! ## Claims -/

/-- Claim C1 (refuted by the source; evaluation of the code at the
failing input).  The claim states that a settlement from A to B changes
exactly two accumulators: it decreases the `owed` of A and the `paid`
of B by the amount, moving both net balances by exactly the amount.
The source instead touches four accumulators: starting from zero
accumulators, a settlement of 50 from user 1 to user 2 also RAISES
`paid` of user 1 to 50 and `owes` of user 2 to 50, so each net balance
moves by twice the amount.  On the scenario of the spec (user 1 pays
100 split evenly, user 2 settles 50 to user 1) the resulting balances
are -50 and 50 instead of 0 and 0. -/
theorem c1_code_eval :
    (applySettlement (fun _ => 0, fun _ => 0) ⟨1, 2, 50⟩).1 1 = 50 ∧
    (applySettlement (fun _ => 0, fun _ => 0) ⟨1, 2, 50⟩).2 1 = -50 ∧
    (applySettlement (fun _ => 0, fun _ => 0) ⟨1, 2, 50⟩).1 2 = -50 ∧
    (applySettlement (fun _ => 0, fun _ => 0) ⟨1, 2, 50⟩).2 2 = 50 ∧
    ((calculateBalancesList [1, 2]
        [⟨1, 100, false, false, [⟨1, 50⟩, ⟨2, 50⟩]⟩]
        [⟨2, 1, 50⟩]).map BalanceEntry.balance) = [-50, 50] := by
  refine ⟨by norm_num [applySettlement, bump], by norm_num [applySettlement, bump],
    by norm_num [applySettlement, bump], by norm_num [applySettlement, bump], ?_⟩
  norm_num [calculateBalancesList, applyExpense, applySettlement, bump, sortLe, insertLe]

/-- Claim C2 counterexample.  A push batch with one expense-create
change whose second split references a nonexistent user leaves the
expense row and the first split row in the committed state even though
the change fails: the multi-row effect of a single change is NOT
atomic (two splits were requested, one was written). -/
theorem c2_counterexample :
    (processBatch dbW 1 7 [rcC2]).2.map SyncResult.success = [false] ∧
    (processBatch dbW 1 7 [rcC2]).1.expenses.length = 1 ∧
    (processBatch dbW 1 7 [rcC2]).1.splits.length = 1 ∧
    (dC2.splits.getD []).length = 2 := by
  refine ⟨rfl, rfl, rfl, rfl⟩

/-- Claim C2 as amended.  Changes of a batch are applied strictly in
sequence and the effects of earlier changes are never rolled back by
later ones: processing `cs ++ cs2` equals processing `cs`, then
processing `cs2` on the resulting state, with the outcome lists
concatenated.  (Atomicity of one change, the other half of the
original claim, fails: see the counterexample.) -/
theorem c2_amended_batch (db : Db) (user now : Nat) (cs cs2 : List RawChange) :
    processBatch db user now (cs ++ cs2) =
      ((processBatch (processBatch db user now cs).1 user now cs2).1,
       (processBatch db user now cs).2 ++
         (processBatch (processBatch db user now cs).1 user now cs2).2) := by
  induction cs generalizing db with
  | nil => simp [processBatch]
  | cons rc rest ih =>
    simp only [List.cons_append, processBatch]
    cases validateChange rc with
    | none => simp [ih]
    | some c => simp [ih]

/-- Claim C3 (refuted by the source; evaluation of the code at the
failing input).  The claim states every non-first member receives the
floor-to-cent quotient (33.33 for 100 over 3) and the first member
receives quotient plus cent remainder (33.34).  The source divides
without any cent quantization: all three members receive the exact
quotient 100/3, which is not a whole number of cents, and no member
absorbs a cent remainder.  (Under the 28-digit decimal context of the
source the quotient is 33.33333333333333333333333333, equally far from
the claimed values.)  The exact-sum part of the claim does hold. -/
theorem c3_code_eval :
    createEqualSplits 100 [1, 2, 3] =
      [⟨1, 100/3⟩, ⟨2, 100/3⟩, ⟨3, 100/3⟩] ∧
    ((createEqualSplits 100 [1, 2, 3]).map ExpenseSplit.amount).sum = 100 ∧
    ¬ ((createEqualSplits 100 [1, 2, 3]).map ExpenseSplit.amount =
      [3334/100, 3333/100, 3333/100]) := by
  refine ⟨?_, ?_, ?_⟩ <;> norm_num [createEqualSplits, List.enum]

/-- Claim C4.  A pushed expense update whose stored `updated_at` is
strictly newer than the declared client timestamp is answered with a
conflict outcome carrying the current server state of the entity, and
every entity table is left exactly as it was (only the audit log
grows by the one entry recording the rejected change). -/
theorem c4_conflict_preserves_state (db : Db) (user : Nat) (c : Change) (now : Nat)
    (e : SExpense)
    (hty : c.entity_type = "expense") (hop : c.operation = "update")
    (hfind : db.expenses.find? (fun x => decide (x.id = c.entity_id)) = some e)
    (hconf : c.client_timestamp < e.updated_at) :
    (processChange db user c now).2.conflict = true ∧
    (processChange db user c now).2.success = false ∧
    (processChange db user c now).2.server_data = some (serializeExpense db e) ∧
    (processChange db user c now).1.expenses = db.expenses ∧
    (processChange db user c now).1.splits = db.splits ∧
    (processChange db user c now).1.groups = db.groups ∧
    (processChange db user c now).1.settlements = db.settlements ∧
    (processChange db user c now).1.memberships = db.memberships ∧
    (processChange db user c now).1.users = db.users ∧
    (processChange db user c now).1.logs = db.logs ++ [logOf user c false] := by
  have hstep : syncExpense db user c.operation c.entity_id c.local_id c.data
      c.client_timestamp now (initResult c) =
      (db,
       { initResult c with
         conflict := true
         server_data := some (serializeExpense db e)
         error := some "Server version is newer" }) := by
    unfold syncExpense
    rw [hop]
    rw [if_neg (by decide), if_pos rfl, hfind]
    dsimp only
    rw [if_pos hconf]
  have hpc : processChange db user c now =
      ({ db with logs := db.logs ++ [logOf user c false] },
       { initResult c with
         conflict := true
         server_data := some (serializeExpense db e)
         error := some "Server version is newer" }) := by
    unfold processChange
    dsimp only
    rw [if_pos hty, hstep]
    simp [initResult]
  rw [hpc]
  simp [initResult]

/-- Claim C4 witness: on the concrete state `dbC4` (expense 50 stored
with `updated_at = 10`), pushing the update `cUpd` declaring client
timestamp 4 produces a conflict and leaves the expense table
unchanged. -/
theorem c4_witness :
    cUpd.client_timestamp < expC4.updated_at ∧
    (processChange dbC4 1 cUpd 20).2.conflict = true ∧
    (processChange dbC4 1 cUpd 20).2.success = false ∧
    (processChange dbC4 1 cUpd 20).2.server_data =
      some (serializeExpense dbC4 expC4) ∧
    (processChange dbC4 1 cUpd 20).1.expenses = dbC4.expenses ∧
    (processChange dbC4 1 cUpd 20).1.splits = dbC4.splits :=
  ⟨by decide,
   (c4_conflict_preserves_state dbC4 1 cUpd 20 expC4 rfl rfl rfl (by decide)).1,
   (c4_conflict_preserves_state dbC4 1 cUpd 20 expC4 rfl rfl rfl (by decide)).2.1,
   (c4_conflict_preserves_state dbC4 1 cUpd 20 expC4 rfl rfl rfl (by decide)).2.2.1,
   (c4_conflict_preserves_state dbC4 1 cUpd 20 expC4 rfl rfl rfl (by decide)).2.2.2.1,
   (c4_conflict_preserves_state dbC4 1 cUpd 20 expC4 rfl rfl rfl (by decide)).2.2.2.2.1⟩

/-- Claim C5 counterexample.  A batch consisting of one change that
fails push validation (missing `entity_type`) produces one error
outcome but appends NO audit-log entry, so not every processed change
of a batch is logged. -/
theorem c5_counterexample :
    (processBatch dbW 1 7 [rcC5]).2.length = 1 ∧
    (processBatch dbW 1 7 [rcC5]).2.map SyncResult.success = [false] ∧
    (processBatch dbW 1 7 [rcC5]).1.logs.length = 0 := by
  refine ⟨rfl, rfl, rfl⟩

/-- Claim C5 as amended.  Every change that passes push validation is
logged exactly once (whatever its outcome), and the appended log row
carries the change payload together with the resolution flag; a change
failing validation contributes an error outcome but no log entry, so
the number of log rows grows by exactly the number of valid changes. -/
theorem c5_amended_logging :
    (∀ (db : Db) (user now : Nat) (batch : List RawChange),
      (processBatch db user now batch).1.logs.length =
        db.logs.length + batch.countP (fun rc => (validateChange rc).isSome)) ∧
    (∀ (db : Db) (user : Nat) (c : Change) (now : Nat),
      (processChange db user c now).1.logs =
        db.logs ++ [logOf user c (processChange db user c now).2.success]) := by
  constructor
  · intro db user now batch
    induction batch generalizing db with
    | nil => simp [processBatch]
    | cons rc rest ih =>
      simp only [processBatch]
      cases hv : validateChange rc with
      | none => simp [List.countP_cons, hv, ih]
      | some c =>
        dsimp only
        rw [ih, processChange_logs]
        simp [List.countP_cons, hv]
        omega
  · intro db user c now
    exact processChange_logs db user c now

/-- Claim C6 counterexample.  Two expenses of 100 among members 1 and
2 whose splits each sum to 99.99 — a deviation of exactly one cent,
which the serializer validation accepts — leave a total net balance of
0.02, which is NOT within the 1-cent epsilon of zero. -/
theorem c6_counterexample :
    validateSplitData 100 [50, 4999/100] = true ∧
    ((calculateBalancesList [1, 2]
        [⟨1, 100, false, false, [⟨1, 50⟩, ⟨2, 4999/100⟩]⟩,
         ⟨2, 100, false, false, [⟨1, 4999/100⟩, ⟨2, 50⟩]⟩]
        []).map BalanceEntry.balance).sum = 1/50 ∧
    ¬ (|(1 : ℚ)/50| < eps) := by
  refine ⟨?_, ?_, ?_⟩
  · norm_num [validateSplitData, abs_le]
  · norm_num [calculateBalancesList, applyExpense, bump, sortLe, insertLe]
  · rw [abs_of_nonneg (by norm_num : (0:ℚ) ≤ 1/50)]
    norm_num [eps]

/-- Claim C6 as amended.  When every counted (non-deleted, unsettled)
expense has splits summing exactly to its amount, the payer and all
split users are group members, both parties of every settlement are
group members, and the member list has no duplicates, the sum of the
reported net balances is exactly zero — in particular within the
1-cent epsilon.  (Without the exact-sum hypothesis the property fails:
see the counterexample.) -/
theorem c6_amended_sum_zero (members : List Nat) (expenses : List Expense)
    (settlements : List Settlement) (hnd : members.Nodup)
    (hexp : ∀ e ∈ expenses.filter (fun e => !e.is_deleted && !e.is_settled),
      (e.splits.map ExpenseSplit.amount).sum = e.amount ∧
      e.paid_by ∈ members ∧ ∀ sp ∈ e.splits, sp.user_id ∈ members)
    (hset : ∀ s ∈ settlements, s.from_user ∈ members ∧ s.to_user ∈ members) :
    ((calculateBalancesList members expenses settlements).map
      BalanceEntry.balance).sum = 0 := by
  unfold calculateBalancesList
  rw [((sortLe_perm _ _).map BalanceEntry.balance).sum_eq, List.map_map]
  simp only [Function.comp_def]
  rw [sum_map_sub, net_foldl_applySettlement settlements members hnd hset,
    net_foldl_applyExpense _ members hnd hexp]
  simp

/-- Claim C6 witness: the amended theorem applied to the concrete
scenario of one 100 expense split 50/50 plus one 50 settlement. -/
theorem c6_witness :
    ((calculateBalancesList [1, 2]
        [⟨1, 100, false, false, [⟨1, 50⟩, ⟨2, 50⟩]⟩]
        [⟨2, 1, 50⟩]).map BalanceEntry.balance).sum = 0 :=
  c6_amended_sum_zero [1, 2] [⟨1, 100, false, false, [⟨1, 50⟩, ⟨2, 50⟩]⟩]
    [⟨2, 1, 50⟩]
    (by decide)
    (by
      intro e he
      have he2 : e ∈ [(⟨1, 100, false, false, [⟨1, 50⟩, ⟨2, 50⟩]⟩ : Expense)] := he
      rw [List.mem_singleton] at he2
      subst he2
      refine ⟨by norm_num, by simp, ?_⟩
      intro sp hsp
      fin_cases hsp <;> simp)
    (by
      intro s hs
      rw [List.mem_singleton] at hs
      subst hs
      exact ⟨by simp, by simp⟩)

/-- Claim C7.  The greedy debt simplifier emits at most
debtorCount + creditorCount - 1 transactions, where debtorCount counts
balances below minus epsilon and creditorCount counts balances above
epsilon (natural subtraction: the bound reads 0 when both are empty). -/
theorem c7_transaction_count_bound (balances : List BalanceEntry) :
    (simplifyDebts balances).length ≤
      (balances.filter (fun b => decide (b.balance < -eps))).length +
      (balances.filter (fun b => decide (eps < b.balance))).length - 1 := by
  unfold simplifyDebts
  have hb := greedyLoop_length_le
    ((sortLe (fun a b => decide (b.amount ≤ a.amount)) (classifyBalances balances).1).length +
     (sortLe (fun a b => decide (b.amount ≤ a.amount)) (classifyBalances balances).2).length)
    (sortLe (fun a b => decide (b.amount ≤ a.amount)) (classifyBalances balances).1)
    (sortLe (fun a b => decide (b.amount ≤ a.amount)) (classifyBalances balances).2)
    le_rfl
  rwa [sortLe_length, sortLe_length, classifyBalances_fst_length,
    classifyBalances_snd_length] at hb

/-- Claim C8.  A pull returns the server clock reading, and exactly
those groups, expenses and settlements of the accessible groups whose
change timestamp is strictly newer than the given `last_sync`
(everything when `last_sync` is absent); settlements are immutable and
carry their creation instant `settled_at` as change timestamp. -/
theorem c8_pull_characterization (db : Db) (user : Nat) (lastSync : Option Nat)
    (groupIds : Option (List Nat)) (now : Nat) :
    (syncPull db user lastSync groupIds now).server_timestamp = now ∧
    (∀ g : SGroup, g ∈ (syncPull db user lastSync groupIds now).groups ↔
      (g ∈ db.groups ∧ specAccessible db user groupIds g = true ∧
        specSince lastSync g.updated_at = true)) ∧
    (∀ e : SExpense, e ∈ (syncPull db user lastSync groupIds now).expenses ↔
      (e ∈ db.expenses ∧
        (∃ g ∈ db.groups, specAccessible db user groupIds g = true ∧ g.id = e.group) ∧
        specSince lastSync e.updated_at = true)) ∧
    (∀ s : SSettlement, s ∈ (syncPull db user lastSync groupIds now).settlements ↔
      (s ∈ db.settlements ∧
        (∃ g ∈ db.groups, specAccessible db user groupIds g = true ∧ g.id = s.group) ∧
        specSince lastSync s.settled_at = true)) := by
  cases lastSync <;> cases groupIds <;>
    simp [syncPull, specAccessible, specSince, List.mem_filter, List.any_eq_true,
      and_assoc] <;>
    constructor <;>
    aesop

/-- Claim C9.  Deleting an expense — through the delete endpoint or a
pushed delete change — never removes the row: the expense table keeps
its length, every other expense is untouched, the target expense
changes only its `is_deleted` flag and `updated_at` stamp, and the
split rows are left entirely unchanged. -/
theorem c9_soft_delete_frame :
    (∀ (db : Db) (eid now : Nat),
      (destroyExpense db eid now).splits = db.splits ∧
      (destroyExpense db eid now).expenses.length = db.expenses.length ∧
      (∀ e ∈ db.expenses, e.id ≠ eid → e ∈ (destroyExpense db eid now).expenses) ∧
      (∀ e ∈ db.expenses, e.id = eid →
        { e with is_deleted := true, updated_at := now } ∈
          (destroyExpense db eid now).expenses)) ∧
    (∀ (db : Db) (user : Nat) (c : Change) (now : Nat) (e : SExpense),
      c.entity_type = "expense" → c.operation = "delete" →
      db.expenses.find? (fun x => decide (x.id = c.entity_id)) = some e →
      (e.created_by = user ∨ expenseGroupOwner db e = some user) →
      (processChange db user c now).2.success = true ∧
      (processChange db user c now).1.splits = db.splits ∧
      (processChange db user c now).1.expenses =
        db.expenses.map (fun x =>
          if x.id = c.entity_id then { x with is_deleted := true, updated_at := now }
          else x) ∧
      (processChange db user c now).1.expenses.length = db.expenses.length) := by
  constructor
  · intro db eid now
    refine ⟨rfl, by simp [destroyExpense], ?_, ?_⟩
    · intro e he hne
      have hm := List.mem_map_of_mem
        (fun x => if x.id = eid then { x with is_deleted := true, updated_at := now }
         else x) he
      dsimp only at hm
      rw [if_neg hne] at hm
      exact hm
    · intro e he heq
      have hm := List.mem_map_of_mem
        (fun x => if x.id = eid then { x with is_deleted := true, updated_at := now }
         else x) he
      dsimp only at hm
      rw [if_pos heq] at hm
      exact hm
  · intro db user c now e hty hop hfind hperm
    have hperm2 : ¬ (e.created_by ≠ user ∧ expenseGroupOwner db e ≠ some user) := by
      rcases hperm with h | h
      · exact fun hc => hc.1 h
      · exact fun hc => hc.2 h
    have hstep : syncExpense db user c.operation c.entity_id c.local_id c.data
        c.client_timestamp now (initResult c) =
        ({ db with expenses := db.expenses.map (fun x =>
             if x.id = c.entity_id then { x with is_deleted := true, updated_at := now }
             else x) },
         { initResult c with
           success := true }) := by
      unfold syncExpense
      rw [hop]
      rw [if_neg (by decide), if_neg (by decide), if_pos rfl, hfind]
      dsimp only
      rw [if_neg hperm2]
    have hpc : processChange db user c now =
        ({ db with
           expenses := db.expenses.map (fun x =>
             if x.id = c.entity_id then { x with is_deleted := true, updated_at := now }
             else x)
           logs := db.logs ++ [logOf user c true] },
         { initResult c with
           success := true }) := by
      unfold processChange
      dsimp only
      rw [if_pos hty, hstep]
      try simp [initResult]
    rw [hpc]
    simp [initResult]

/-- Claim C9 witness: deleting the stored expense 50 of `dbC4` through
both paths keeps the row (soft-deleted) and the splits table. -/
theorem c9_witness :
    ({ expC4 with is_deleted := true, updated_at := 9 } ∈
      (destroyExpense dbC4 50 9).expenses) ∧
    (destroyExpense dbC4 50 9).splits = dbC4.splits ∧
    (processChange dbC4 1 cDel 9).2.success = true ∧
    (processChange dbC4 1 cDel 9).1.splits = dbC4.splits ∧
    (processChange dbC4 1 cDel 9).1.expenses.length = dbC4.expenses.length :=
  ⟨(c9_soft_delete_frame.1 dbC4 50 9).2.2.2 expC4 (by simp [dbC4]) rfl,
   (c9_soft_delete_frame.1 dbC4 50 9).1,
   (c9_soft_delete_frame.2 dbC4 1 cDel 9 expC4 rfl rfl rfl (Or.inl rfl)).1,
   (c9_soft_delete_frame.2 dbC4 1 cDel 9 expC4 rfl rfl rfl (Or.inl rfl)).2.1,
   (c9_soft_delete_frame.2 dbC4 1 cDel 9 expC4 rfl rfl rfl (Or.inl rfl)).2.2.2⟩

/-- Claim C10.  A pushed settlement change with operation update or
delete falls through the settlement dispatcher: the outcome keeps
`success = false` and no table other than the audit log changes — in
particular no settlement row is modified or removed. -/
theorem c10_settlement_immutable (db : Db) (user : Nat) (c : Change) (now : Nat)
    (hty : c.entity_type = "settlement")
    (hop : c.operation = "update" ∨ c.operation = "delete") :
    (processChange db user c now).2.success = false ∧
    (processChange db user c now).1.settlements = db.settlements ∧
    (processChange db user c now).1.expenses = db.expenses ∧
    (processChange db user c now).1.splits = db.splits ∧
    (processChange db user c now).1.groups = db.groups := by
  have hop2 : ¬ (c.operation = "create") := by
    rcases hop with h | h <;> rw [h] <;> decide
  have hstep : syncSettlement db user c.operation c.data now (initResult c) =
      (db, initResult c) := by
    unfold syncSettlement
    rw [if_neg hop2]
  have hpc : processChange db user c now =
      ({ db with logs := db.logs ++ [logOf user c false] }, initResult c) := by
    unfold processChange
    dsimp only
    rw [hty]
    rw [if_neg (by decide), if_neg (by decide), if_pos rfl, hstep]
    simp [initResult]
  rw [hpc]
  simp [initResult]

/-- Claim C10 witness: pushing a settlement update against `dbW`
returns a failed outcome and leaves the settlement table unchanged. -/
theorem c10_witness :
    (processChange dbW 1 cSet 5).2.success = false ∧
    (processChange dbW 1 cSet 5).1.settlements = dbW.settlements :=
  ⟨(c10_settlement_immutable dbW 1 cSet 5 rfl (Or.inl rfl)).1,
   (c10_settlement_immutable dbW 1 cSet 5 rfl (Or.inl rfl)).2.1⟩

end Chippin
